import Mathlib

/-!
Verification development for the tool-call approval gate in
`backend/safe_agent.py` (class `SafeAgent`).

The Python source is shallowly embedded: pure helpers become Lean
functions, the mutable agent object becomes an explicit
`SafeAgentState` threaded through the operations, and the external
`re` / `json` standard-library services consumed by the code are
modelled by executable Lean functions over a documented subset
(`Regex` with Python `re.match` anchoring semantics, `JsonVal` with a
parser for strings / integers / booleans / null / arrays / objects).
Asynchronous calls (`await`) are modelled by ordinary function
application: the code never runs two awaited operations of one tool
call concurrently, so the value semantics coincide.
-/

/-! ### Regular expressions (model of the compiled patterns of `re`)

`safe_agent.py` stores `re.compile`d patterns and tests tools with
`pattern.match(name)`, i.e. matching anchored at the start of the name
and unanchored at the end.  We model a compiled pattern as a regex AST
and `pattern.match` by `reMatch`, which accepts iff some prefix of the
input is in the pattern's language (`accepts`). -/

inductive Regex where
  | fail
  | eps
  | char (c : Char)
  | anyChar
  | seq (r₁ r₂ : Regex)
  | alt (r₁ r₂ : Regex)
  | star (r : Regex)
deriving DecidableEq

/-- Does the regex accept the empty string? -/
def nullable : Regex → Bool
  | .fail => false
  | .eps => true
  | .char _ => false
  | .anyChar => false
  | .seq r₁ r₂ => nullable r₁ && nullable r₂
  | .alt r₁ r₂ => nullable r₁ || nullable r₂
  | .star _ => true

/-- Brzozowski derivative.  `anyChar` models the `re` dot, which does
not match a newline. -/
def rderiv : Regex → Char → Regex
  | .fail, _ => .fail
  | .eps, _ => .fail
  | .char c, d => if c = d then .eps else .fail
  | .anyChar, d => if d = Char.ofNat 10 then .fail else .eps
  | .seq r₁ r₂, d =>
    if nullable r₁ then .alt (.seq (rderiv r₁ d) r₂) (rderiv r₂ d)
    else .seq (rderiv r₁ d) r₂
  | .alt r₁ r₂, d => .alt (rderiv r₁ d) (rderiv r₂ d)
  | .star r, d => .seq (rderiv r d) (.star r)

/-- Whole-string acceptance (the language of the pattern). -/
def accepts (r : Regex) : List Char → Bool
  | [] => nullable r
  | c :: cs => accepts (rderiv r c) cs

/-- Model of Python `pattern.match(s)` truthiness: the pattern matches
at position 0, consuming any number of leading characters (anchored at
the start, unanchored at the end).  A zero-width match is truthy, as
in Python. -/
def reMatch (r : Regex) : List Char → Bool
  | [] => nullable r
  | c :: cs => nullable r || reMatch (rderiv r c) cs

/-- `pattern.match` on a Lean `String`. -/
def reMatchStr (r : Regex) (s : String) : Bool :=
  reMatch r s.data

/-! ### `re.compile` (modelled subset)

`SafeAgent.__init__` and `add_safe_tool_pattern` call `re.compile`;
the latter treats `re.error` as a recoverable failure.  We model
compilation as a total parser returning `none` for `re.error`.  The
modelled pattern language: literal characters, `.`, grouping `(...)`,
alternation `|`, the repeaters `*` `+` `?` (each optionally followed
by a single non-greedy `?`), and backslash escapes of non-alphanumeric
characters.  Constructs outside this subset (`[`, `{`, `^`, `$`,
alphanumeric escapes such as a digit class, stacked repeaters, a
dangling `)`/`\`, a repeater with nothing to repeat, an unclosed
group) are rejected, as the corresponding Python pattern either errors
or is not modelled. -/

/-- After a repeater, allow one optional non-greedy marker; a second
consecutive repeater is a "multiple repeat" error. -/
def repSuffix (r : Regex) (rest : List Char) : Option (Regex × List Char) :=
  match rest with
  | '?' :: rest₂ =>
    match rest₂ with
    | '*' :: _ => none
    | '+' :: _ => none
    | '?' :: _ => none
    | _ => some (r, rest₂)
  | '*' :: _ => none
  | '+' :: _ => none
  | _ => some (r, rest)

mutual

def parseAlt : Nat → List Char → Option (Regex × List Char)
  | 0, _ => none
  | fuel + 1, cs =>
    match parseSeq fuel cs with
    | none => none
    | some (r, rest) =>
      match rest with
      | '|' :: rest₂ =>
        match parseAlt fuel rest₂ with
        | some (r₂, rest₃) => some (.alt r r₂, rest₃)
        | none => none
      | _ => some (r, rest)

def parseSeq : Nat → List Char → Option (Regex × List Char)
  | 0, _ => none
  | fuel + 1, cs =>
    match cs with
    | [] => some (.eps, [])
    | ')' :: _ => some (.eps, cs)
    | '|' :: _ => some (.eps, cs)
    | _ =>
      match parseRep fuel cs with
      | none => none
      | some (r, rest) =>
        match parseSeq fuel rest with
        | some (r₂, rest₂) => some (.seq r r₂, rest₂)
        | none => none

def parseRep : Nat → List Char → Option (Regex × List Char)
  | 0, _ => none
  | fuel + 1, cs =>
    match parseAtom fuel cs with
    | none => none
    | some (r, rest) =>
      match rest with
      | '*' :: rest₂ => repSuffix (.star r) rest₂
      | '+' :: rest₂ => repSuffix (.seq r (.star r)) rest₂
      | '?' :: rest₂ => repSuffix (.alt r .eps) rest₂
      | _ => some (r, rest)

def parseAtom : Nat → List Char → Option (Regex × List Char)
  | 0, _ => none
  | fuel + 1, cs =>
    match cs with
    | [] => none
    | '(' :: rest =>
      match parseAlt fuel rest with
      | some (r, ')' :: rest₂) => some (r, rest₂)
      | _ => none
    | '.' :: rest => some (.anyChar, rest)
    | '\\' :: c :: rest => if c.isAlphanum then none else some (.char c, rest)
    | '\\' :: [] => none
    | ')' :: _ => none
    | '|' :: _ => none
    | '*' :: _ => none
    | '+' :: _ => none
    | '?' :: _ => none
    | '[' :: _ => none
    | ']' :: _ => none
    | '^' :: _ => none
    | '$' :: _ => none
    | c :: rest => if c = Char.ofNat 123 then none else some (.char c, rest)

end

/-- Model of `re.compile`: `some` compiled pattern, or `none` for
`re.error`. -/
def reCompile (pattern : String) : Option Regex :=
  match parseAlt (2 * pattern.length + 4) pattern.data with
  | some (r, []) => some r
  | _ => none

/-! ### JSON (modelled subset of `json.loads`) and Python `repr`

`approved_on_invoke` formats the argument payload with
`json.loads(params_json)` followed by
`", ".join(f"{k}: {repr(v)}")` over the items, falling back to the raw
payload text when anything in that block raises (parse failure, or a
payload that is valid JSON but not an object).  The modelled value
space: strings (without `\u` escapes), integers, booleans, null,
arrays and objects; floats and `\u` escapes are outside the subset and
parse as failures. -/

inductive JsonVal where
  | str (s : String)
  | int (n : Int)
  | bool (b : Bool)
  | null
  | arr (xs : List JsonVal)
  | obj (kvs : List (String × JsonVal))

/-- The double-quote character. -/
def dq : Char := Char.ofNat 34

/-- The single-quote character. -/
def squote : Char := Char.ofNat 39

/-- The backslash character. -/
def bsl : Char := Char.ofNat 92

/-- The `\x7b` / `\x7d` curly-brace characters. -/
def lcurly : Char := Char.ofNat 123

def rcurly : Char := Char.ofNat 125

def skipWs : List Char → List Char
  | c :: cs =>
    if c = ' ' ∨ c = Char.ofNat 9 ∨ c = Char.ofNat 10 ∨ c = Char.ofNat 13 then skipWs cs
    else c :: cs
  | [] => []

/-- One-character JSON string escapes (`\uXXXX` is outside the
modelled subset). -/
def jsonEsc (c : Char) : Option Char :=
  if c = dq then some dq
  else if c = bsl then some bsl
  else if c = '/' then some '/'
  else if c = 'n' then some (Char.ofNat 10)
  else if c = 't' then some (Char.ofNat 9)
  else if c = 'r' then some (Char.ofNat 13)
  else if c = 'b' then some (Char.ofNat 8)
  else if c = 'f' then some (Char.ofNat 12)
  else none

/-- Body of a JSON string, after the opening quote; returns the
decoded characters and the input after the closing quote. -/
def jStrBody : List Char → Option (List Char × List Char)
  | [] => none
  | c :: cs =>
    if c = dq then some ([], cs)
    else if c = bsl then
      match cs with
      | [] => none
      | e :: cs₂ =>
        match jsonEsc e with
        | none => none
        | some d =>
          match jStrBody cs₂ with
          | some (body, rest) => some (d :: body, rest)
          | none => none
    else
      match jStrBody cs with
      | some (body, rest) => some (c :: body, rest)
      | none => none

def jDigits (acc : Nat) : List Char → Nat × List Char
  | c :: cs => if c.isDigit then jDigits (acc * 10 + (c.toNat - 48)) cs else (acc, c :: cs)
  | [] => (acc, [])

def jlookup (k : String) : List (String × JsonVal) → Option JsonVal
  | [] => none
  | (k', v') :: rest => if k' = k then some v' else jlookup k rest

def jremove (k : String) : List (String × JsonVal) → List (String × JsonVal)
  | [] => []
  | (k', v') :: rest => if k' = k then jremove k rest else (k', v') :: jremove k rest

/-- JSON object assembly, prepending one parsed member to the already
assembled later members: a duplicate key keeps its first position but
takes the later value, as a Python dict built by insertion does. -/
def dcons (k : String) (v : JsonVal) (kvs : List (String × JsonVal)) :
    List (String × JsonVal) :=
  match jlookup k kvs with
  | some v' => (k, v') :: jremove k kvs
  | none => (k, v) :: kvs

mutual

def jparse : Nat → List Char → Option (JsonVal × List Char)
  | 0, _ => none
  | fuel + 1, cs =>
    match skipWs cs with
    | [] => none
    | c :: cs₂ =>
      if c = dq then
        match jStrBody cs₂ with
        | some (body, rest) => some (.str (String.mk body), rest)
        | none => none
      else if c = '-' ∨ c.isDigit then
        match (if c = '-' then cs₂ else c :: cs₂) with
        | d :: ds =>
          if d.isDigit then
            match jDigits 0 (d :: ds) with
            | (n, rest) =>
              match rest with
              | r :: _ => if r = '.' ∨ r = 'e' ∨ r = 'E' then none
                          else some (.int (if c = '-' then -(n : Int) else (n : Int)), rest)
              | [] => some (.int (if c = '-' then -(n : Int) else (n : Int)), [])
          else none
        | [] => none
      else if c = 't' then
        match cs₂ with
        | 'r' :: 'u' :: 'e' :: rest => some (.bool true, rest)
        | _ => none
      else if c = 'f' then
        match cs₂ with
        | 'a' :: 'l' :: 's' :: 'e' :: rest => some (.bool false, rest)
        | _ => none
      else if c = 'n' then
        match cs₂ with
        | 'u' :: 'l' :: 'l' :: rest => some (.null, rest)
        | _ => none
      else if c = '[' then
        match skipWs cs₂ with
        | ']' :: rest => some (.arr [], rest)
        | cs₃ =>
          match jparseItems fuel cs₃ with
          | some (xs, rest) => some (.arr xs, rest)
          | none => none
      else if c = lcurly then
        match skipWs cs₂ with
        | [] => none
        | m :: ms =>
          if m = rcurly then some (.obj [], ms)
          else
            match jparseMembers fuel (m :: ms) with
            | some (kvs, rest) => some (.obj kvs, rest)
            | none => none
      else none

def jparseItems : Nat → List Char → Option (List JsonVal × List Char)
  | 0, _ => none
  | fuel + 1, cs =>
    match jparse fuel cs with
    | none => none
    | some (v, rest) =>
      match skipWs rest with
      | ',' :: rest₂ =>
        match jparseItems fuel rest₂ with
        | some (xs, rest₃) => some (v :: xs, rest₃)
        | none => none
      | ']' :: rest₂ => some ([v], rest₂)
      | _ => none

def jparseMembers : Nat → List Char → Option (List (String × JsonVal) × List Char)
  | 0, _ => none
  | fuel + 1, cs =>
    match skipWs cs with
    | [] => none
    | c :: cs₂ =>
      if c = dq then
        match jStrBody cs₂ with
        | none => none
        | some (key, rest) =>
          match skipWs rest with
          | ':' :: rest₂ =>
            match jparse fuel rest₂ with
            | none => none
            | some (v, rest₃) =>
              match skipWs rest₃ with
              | ',' :: rest₄ =>
                match jparseMembers fuel rest₄ with
                | some (kvs, rest₅) => some (dcons (String.mk key) v kvs, rest₅)
                | none => none
              | m :: rest₄ =>
                if m = rcurly then some ([(String.mk key, v)], rest₄) else none
              | [] => none
          | _ => none
      else none

end

/-- Model of `json.loads`: the whole input must be one JSON value,
possibly surrounded by whitespace. -/
def jsonLoads (s : String) : Option JsonVal :=
  match jparse (3 * s.length + 8) s.data with
  | some (v, rest) => if skipWs rest = [] then some v else none
  | none => none

/-- Python `repr` of a string over the printable subset: quote with a
single quote, or with a double quote when the string contains a single
quote and no double quote; escape the backslash, the chosen quote, and
the newline / carriage-return / tab characters. -/
def pyStrRepr (s : String) : String :=
  let hasS := s.data.contains squote
  let hasD := s.data.contains dq
  let q := if hasS && !hasD then dq else squote
  let esc := fun (c : Char) =>
    if c = bsl then String.mk [bsl, bsl]
    else if c = q then String.mk [bsl, q]
    else if c = Char.ofNat 10 then String.mk [bsl, 'n']
    else if c = Char.ofNat 13 then String.mk [bsl, 'r']
    else if c = Char.ofNat 9 then String.mk [bsl, 't']
    else String.mk [c]
  String.mk [q] ++ String.join (s.data.map esc) ++ String.mk [q]

mutual

/-- Python `repr` of a parsed JSON value. -/
def pyRepr : JsonVal → String
  | .str s => pyStrRepr s
  | .int n => toString n
  | .bool true => "True"
  | .bool false => "False"
  | .null => "None"
  | .arr xs => "[" ++ String.intercalate ", " (pyReprList xs) ++ "]"
  | .obj kvs => String.mk [lcurly] ++ String.intercalate ", " (pyReprMembers kvs) ++ String.mk [rcurly]

def pyReprList : List JsonVal → List String
  | [] => []
  | v :: vs => pyRepr v :: pyReprList vs

def pyReprMembers : List (String × JsonVal) → List String
  | [] => []
  | (k, v) :: rest => (pyStrRepr k ++ ": " ++ pyRepr v) :: pyReprMembers rest

end

/-- One `f"{k}: {repr(v)}"` item of the display summary. -/
def formatPair (kv : String × JsonVal) : String :=
  kv.1 ++ ": " ++ pyRepr kv.2

/-- The display-formatting step of `approved_on_invoke`: parse the
payload and join the `key: value` items; an empty payload string is
Python-falsy and yields the empty summary; any failure inside the
`try` block (parse failure, or a payload whose JSON value is not an
object, on which `.items()` raises) falls back to the raw payload
text. -/
def formatArgs (params_json : String) : String :=
  if params_json = "" then ""
  else
    match jsonLoads params_json with
    | some (.obj kvs) => String.intercalate ", " (kvs.map formatPair)
    | _ => params_json

/-! ### Data model of `SafeAgent`

The mutable agent object becomes `SafeAgentState`; each Python method
that mutates `self` becomes a function from state to state.  The
approval callback has the Python signature
`(tool_name, formatted_args) -> (approved, always_approve, error_msg)`;
it is asynchronous in the source and modelled by its value. -/

abbrev ApprovalCallback := String → String → Bool × Bool × Option String

/-- The runtime context object passed to a tool-use-behavior hook
(opaque to `safe_agent.py`). -/
abbrev Ctx := String

/-- The batch of tool results passed to a tool-use-behavior hook
(opaque to `safe_agent.py`). -/
abbrev ToolResults := List String

/-- `ToolsToFinalOutputResult` from the source: `final_output` defaults
to Python `None`, and the halt branch carries the empty string. -/
structure ToolsToFinalOutputResult where
  is_final_output : Bool
  final_output : Option String
deriving DecidableEq

/-- A step-continuation behavior the underlying agent may carry:
`isCoroutine` records whether `inspect.iscoroutinefunction` is true of
it (the source awaits it in that case and calls it directly
otherwise). -/
structure BehaviorFn where
  isCoroutine : Bool
  call : Ctx → ToolResults → ToolsToFinalOutputResult

/-- The `tool_use_behavior` attribute inherited from the `agents`
runtime: either a string-valued mode (not callable) or a callable
behavior; `customHalt` marks the halt-checking method that
`SafeAgent.__init__` installs in its place. -/
inductive ToolUseBehaviorAttr where
  | runMode (s : String)
  | behavior (b : BehaviorFn)
  | customHalt

/-- Python `callable` on the `tool_use_behavior` attribute. -/
def callableBehavior : ToolUseBehaviorAttr → Bool
  | .runMode _ => false
  | .behavior _ => true
  | .customHalt => true

/-- The invocation operation of a tool: either an original
`on_invoke_tool` body (its result as a function of the params JSON),
or the `approved_on_invoke` wrapper that `wrap_tool_with_approval`
builds around an inner invocation for the tool of the given name. -/
inductive InvokeFn where
  | base (f : String → String)
  | wrapped (toolName : String) (orig : InvokeFn)

/-- A tool as seen by `safe_agent.py`: `isFunctionTool` models the
`isinstance(tool, FunctionTool)` test and `approval_wrapped` the
dynamic `_approval_wrapped` attribute (absent = `false`). -/
structure Tool where
  name : String
  description : String
  params_json_schema : List (String × String)
  strict_json_schema : Bool
  isFunctionTool : Bool
  approval_wrapped : Bool
  on_invoke : InvokeFn

/-- The mutable state of one `SafeAgent` instance. -/
structure SafeAgentState where
  safe_tool_names : List String
  safe_tool_patterns : List Regex
  debug_mode : Bool
  halt_on_rejection : Bool
  skip_approvals : Bool
  halt_run : Bool
  halt_reason : Option String
  original_tool_use_behavior : Option BehaviorFn
  tool_use_behavior : ToolUseBehaviorAttr

/-- `SafeAgent.__init__`: record the policy configuration, clear the
halt state, and replace `tool_use_behavior` with the custom
halt-checking behavior exactly when the inherited attribute is
callable at that moment (a fresh agent inherits a string mode or a
user-supplied callable, never `customHalt`). -/
def initSafeAgent (safe_tool_names : List String) (safe_tool_patterns : List Regex)
    (debug_mode halt_on_rejection skip_approvals : Bool)
    (inherited : ToolUseBehaviorAttr) : SafeAgentState :=
  let base : SafeAgentState :=
    { safe_tool_names := safe_tool_names
      safe_tool_patterns := safe_tool_patterns
      debug_mode := debug_mode
      halt_on_rejection := halt_on_rejection
      skip_approvals := skip_approvals
      halt_run := false
      halt_reason := none
      original_tool_use_behavior := none
      tool_use_behavior := inherited }
  if callableBehavior inherited then
    { base with
      original_tool_use_behavior :=
        match inherited with
        | .behavior b => some b
        | _ => none
      tool_use_behavior := .customHalt }
  else base

/-- `is_tool_safe`: bypass flag, then exact name, then the compiled
patterns with `pattern.match` semantics. -/
def is_tool_safe (st : SafeAgentState) (tool : Tool) : Bool :=
  if st.skip_approvals then true
  else if tool.name ∈ st.safe_tool_names then true
  else st.safe_tool_patterns.any (fun pattern => reMatchStr pattern tool.name)

/-- `add_safe_tool`: add the name to the safe set (a Python set add is
a no-op on an element already present). -/
def add_safe_tool (st : SafeAgentState) (tool_name : String) : SafeAgentState :=
  if tool_name ∈ st.safe_tool_names then st
  else { st with safe_tool_names := st.safe_tool_names ++ [tool_name] }

/-- `add_safe_tool_pattern`: compile the pattern and append it; an
`re.error` is caught, at most logged, and the pattern is not added. -/
def add_safe_tool_pattern (st : SafeAgentState) (pattern : String) : SafeAgentState :=
  match reCompile pattern with
  | some pattern_obj =>
    { st with safe_tool_patterns := st.safe_tool_patterns ++ [pattern_obj] }
  | none => st

/-- `remove_safe_tool`: remove the name, reporting whether removal
occurred. -/
def remove_safe_tool (st : SafeAgentState) (tool_name : String) :
    SafeAgentState × Bool :=
  if tool_name ∈ st.safe_tool_names then
    ({ st with safe_tool_names := st.safe_tool_names.filter (fun n => n ≠ tool_name) }, true)
  else (st, false)

/-- `clear_safe_tools`. -/
def clear_safe_tools (st : SafeAgentState) : SafeAgentState :=
  { st with safe_tool_names := [], safe_tool_patterns := [] }

/-- `_custom_tool_use_behavior`: on a set halt flag, force a final
output with the empty string; otherwise delegate to the stored
original behavior (awaited when it is a coroutine function, called
directly otherwise — same value in this model), or report "continue,
no final output" when none was stored. -/
def custom_tool_use_behavior (st : SafeAgentState) (ctx : Ctx)
    (tool_results : ToolResults) : ToolsToFinalOutputResult :=
  if st.halt_run then
    { is_final_output := true, final_output := some "" }
  else
    match st.original_tool_use_behavior with
    | some b =>
      if b.isCoroutine then b.call ctx tool_results else b.call ctx tool_results
    | none => { is_final_output := false, final_output := none }

/-- Python string-or: the empty string is falsy. -/
def pyStrOr (s : Option String) (dflt : String) : String :=
  match s with
  | some v => if v = "" then dflt else v
  | none => dflt

/-- The structured rejection value `approved_on_invoke` returns (the
source serializes it with `json.dumps`; we keep the fields). -/
structure RejectionPayload where
  error : String
  message : String
  tool : String
deriving DecidableEq

/-- What a tool invocation returns to the runtime: a normal output or
the serialized rejection payload. -/
inductive InvokeResult where
  | output (s : String)
  | rejection (p : RejectionPayload)
deriving DecidableEq

/-- Result of running an invocation operation: the successor agent
state, the returned value, and the chronological list of
`(tool_name, formatted_args)` approval-callback invocations it made. -/
structure InvokeOutcome where
  state : SafeAgentState
  result : InvokeResult
  callbackCalls : List (String × String)

/-- Interpreter for invocation operations; the `wrapped` case is
`approved_on_invoke`: format the payload, consult the callback, on
approval optionally remember the tool and delegate to the inner
invocation, on rejection optionally set the halt state and return the
structured rejection payload. -/
def runInvoke (cb : ApprovalCallback) (st : SafeAgentState) :
    InvokeFn → String → InvokeOutcome
  | .base f, params_json => ⟨st, .output (f params_json), []⟩
  | .wrapped toolName orig, params_json =>
    let formatted_args := formatArgs params_json
    match cb toolName formatted_args with
    | (true, always_approve, _) =>
      let st₁ := if always_approve then add_safe_tool st toolName else st
      let out := runInvoke cb st₁ orig params_json
      ⟨out.state, out.result, (toolName, formatted_args) :: out.callbackCalls⟩
    | (false, _, error_msg) =>
      let st₁ :=
        if st.halt_on_rejection then
          { st with
            halt_run := true
            halt_reason := some (pyStrOr error_msg "User rejected" ++ " the " ++ toolName ++ " tool") }
        else st
      ⟨st₁,
       .rejection
         { error := "TOOL_REJECTED"
           message := pyStrOr error_msg "User rejected tool call"
           tool := toolName },
       [(toolName, formatted_args)]⟩

/-- `wrap_tool_with_approval`: pass a safe tool through; pass an
already wrapped tool through; pass a non-`FunctionTool` through;
otherwise build a new `FunctionTool` with the same name, description
and (copied) schema whose invocation is `approved_on_invoke`, marked
`_approval_wrapped`. -/
def wrap_tool_with_approval (st : SafeAgentState) (tool : Tool) : Tool :=
  if is_tool_safe st tool then tool
  else if tool.approval_wrapped then tool
  else if !tool.isFunctionTool then tool
  else
    { name := tool.name
      description := tool.description
      params_json_schema := tool.params_json_schema
      strict_json_schema := tool.strict_json_schema
      isFunctionTool := true
      approval_wrapped := true
      on_invoke := .wrapped tool.name tool.on_invoke }

/-- `get_all_tools`: the underlying agent's tools, each wrapped as
needed, in order. -/
def get_all_tools (st : SafeAgentState) (tools : List Tool) : List Tool :=
  tools.map (wrap_tool_with_approval st)

/-- Modelled from the spec: the explicit reset of the Halt State "when
a new run begins" ("reset only when a new run begins (explicit reset
operation)").  The resetting code is not part of `safe_agent.py`
(the repository's tool module, which `backend/main.py` imports a
`reset_approvals` tool from, is not in the sources). -/
def resetHaltState (st : SafeAgentState) : SafeAgentState :=
  { st with halt_run := false, halt_reason := none }

/-- Everything the repository's code can do to one agent instance
within a run, for stating run-scoped invariants. -/
inductive AgentEvent where
  | invokeTool (fn : InvokeFn) (params_json : String)
  | addSafe (tool_name : String)
  | addPattern (pattern : String)
  | removeSafe (tool_name : String)
  | clearSafe

def applyEvent (cb : ApprovalCallback) (st : SafeAgentState) : AgentEvent → SafeAgentState
  | .invokeTool fn params_json => (runInvoke cb st fn params_json).state
  | .addSafe tool_name => add_safe_tool st tool_name
  | .addPattern pattern => add_safe_tool_pattern st pattern
  | .removeSafe tool_name => (remove_safe_tool st tool_name).1
  | .clearSafe => clear_safe_tools st

/-! ### Concrete fixtures for witnesses -/

/-- The compiled form of the pattern `"read_"` (five literal
characters). -/
def patRead : Regex :=
  .seq (.char 'r') (.seq (.char 'e') (.seq (.char 'a') (.seq (.char 'd') (.char '_'))))

/-- A policy state with the allow-list `["list_directory"]`, the
compiled pattern `"read_"`, `halt_on_rejection := true`, and the
runtime's default string-valued `tool_use_behavior`. -/
def sampleAgent : SafeAgentState :=
  { safe_tool_names := ["list_directory"]
    safe_tool_patterns := [patRead]
    debug_mode := false
    halt_on_rejection := true
    skip_approvals := false
    halt_run := false
    halt_reason := none
    original_tool_use_behavior := none
    tool_use_behavior := .runMode "run_llm_again" }

/-- `sampleAgent` with the global bypass flag set and empty
allow-lists. -/
def bypassAgent : SafeAgentState :=
  { sampleAgent with
    safe_tool_names := []
    safe_tool_patterns := []
    skip_approvals := true }

def readTool : Tool :=
  { name := "read_file"
    description := "reads a file"
    params_json_schema := [("path", "string")]
    strict_json_schema := true
    isFunctionTool := true
    approval_wrapped := false
    on_invoke := .base (fun _ => "contents") }

def writeTool : Tool :=
  { name := "write_file"
    description := "writes a file"
    params_json_schema := [("path", "string")]
    strict_json_schema := true
    isFunctionTool := true
    approval_wrapped := false
    on_invoke := .base (fun _ => "done") }

def listTool : Tool :=
  { name := "list_directory"
    description := "lists a directory"
    params_json_schema := [("path", "string")]
    strict_json_schema := true
    isFunctionTool := true
    approval_wrapped := false
    on_invoke := .base (fun _ => "entries") }

/-- A callback answering `(False, False, "policy")`. -/
def rejectPolicyCb : ApprovalCallback := fun _ _ => (false, false, some "policy")

/-- A callback answering `(False, False, "")` (an empty rejection
reason). -/
def rejectEmptyCb : ApprovalCallback := fun _ _ => (false, false, some "")

/-- A callback answering `(True, True, None)` (approve and remember). -/
def rememberCb : ApprovalCallback := fun _ _ => (true, true, none)

/-! ### Helper lemmas -/

theorem reMatch_iff (r : Regex) (cs : List Char) :
    reMatch r cs = true ↔ ∃ p q, cs = p ++ q ∧ accepts r p = true := by
  induction cs generalizing r with
  | nil =>
    constructor
    · intro h
      exact ⟨[], [], rfl, h⟩
    · rintro ⟨p, q, hpq, hacc⟩
      have hp : p = [] := (List.append_eq_nil.mp hpq.symm).1
      subst hp
      exact hacc
  | cons c cs ih =>
    simp only [reMatch, Bool.or_eq_true]
    constructor
    · rintro (h | h)
      · exact ⟨[], c :: cs, rfl, h⟩
      · obtain ⟨p, q, hpq, hacc⟩ := (ih (rderiv r c)).mp h
        exact ⟨c :: p, q, by simp [hpq], hacc⟩
    · rintro ⟨p, q, hpq, hacc⟩
      cases p with
      | nil =>
        left
        exact hacc
      | cons c' p' =>
        have hc : c' = c := by
          have := hpq
          simp only [List.cons_append, List.cons.injEq] at this
          exact this.1.symm
        have hcs : cs = p' ++ q := by
          have := hpq
          simp only [List.cons_append, List.cons.injEq] at this
          exact this.2
        right
        have hacc' : accepts (rderiv r c') p' = true := hacc
        rw [hc] at hacc'
        exact (ih (rderiv r c)).mpr ⟨p', q, hcs, hacc'⟩

theorem add_safe_tool_mem (st : SafeAgentState) (n : String) :
    n ∈ (add_safe_tool st n).safe_tool_names := by
  unfold add_safe_tool
  split
  · assumption
  · simp

theorem add_safe_tool_halt_run (st : SafeAgentState) (n : String) :
    (add_safe_tool st n).halt_run = st.halt_run := by
  unfold add_safe_tool
  split <;> rfl

theorem add_safe_tool_halt_on_rejection (st : SafeAgentState) (n : String) :
    (add_safe_tool st n).halt_on_rejection = st.halt_on_rejection := by
  unfold add_safe_tool
  split <;> rfl

theorem add_safe_tool_behavior (st : SafeAgentState) (n : String) :
    (add_safe_tool st n).tool_use_behavior = st.tool_use_behavior := by
  unfold add_safe_tool
  split <;> rfl

theorem runInvoke_halt_mono (cb : ApprovalCallback) (fn : InvokeFn) :
    ∀ (st : SafeAgentState) (params : String), st.halt_run = true →
      (runInvoke cb st fn params).state.halt_run = true := by
  induction fn with
  | base f =>
    intro st params h
    exact h
  | wrapped toolName orig ih =>
    intro st params h
    rcases hcb : cb toolName (formatArgs params) with ⟨approved, always, err⟩
    cases approved with
    | true =>
      simp only [runInvoke, hcb]
      apply ih
      cases always <;> simp [add_safe_tool_halt_run, h]
    | false =>
      simp only [runInvoke, hcb]
      split
      · rfl
      · exact h

theorem runInvoke_halt_new (cb : ApprovalCallback) (fn : InvokeFn) :
    ∀ (st : SafeAgentState) (params : String),
      (runInvoke cb st fn params).state.halt_run = true →
      st.halt_run = true ∨
        (st.halt_on_rejection = true ∧
          ∃ p, (runInvoke cb st fn params).result = .rejection p) := by
  induction fn with
  | base f =>
    intro st params h
    exact Or.inl h
  | wrapped toolName orig ih =>
    intro st params
    rcases hcb : cb toolName (formatArgs params) with ⟨approved, always, err⟩
    cases approved with
    | true =>
      simp only [runInvoke, hcb]
      intro h
      rcases ih _ params h with h' | ⟨hr, p, hp⟩
      · left
        cases always <;> simpa [add_safe_tool_halt_run] using h'
      · right
        refine ⟨?_, p, hp⟩
        revert hr
        cases always <;> simp [add_safe_tool_halt_on_rejection]
    | false =>
      simp only [runInvoke, hcb]
      intro h
      by_cases hr : st.halt_on_rejection = true
      · right
        exact ⟨hr, _, rfl⟩
      · left
        simp only [hr, if_false] at h
        simpa [hr] using h

theorem runInvoke_behavior (cb : ApprovalCallback) (fn : InvokeFn) :
    ∀ (st : SafeAgentState) (params : String),
      (runInvoke cb st fn params).state.tool_use_behavior = st.tool_use_behavior := by
  induction fn with
  | base f =>
    intro st params
    rfl
  | wrapped toolName orig ih =>
    intro st params
    rcases hcb : cb toolName (formatArgs params) with ⟨approved, always, err⟩
    cases approved with
    | true =>
      simp only [runInvoke, hcb]
      rw [ih]
      cases always <;> simp [add_safe_tool_behavior]
    | false =>
      simp only [runInvoke, hcb]
      split <;> rfl

theorem applyEvent_halt_mono (cb : ApprovalCallback) (st : SafeAgentState)
    (e : AgentEvent) (h : st.halt_run = true) :
    (applyEvent cb st e).halt_run = true := by
  cases e with
  | invokeTool fn params => exact runInvoke_halt_mono cb fn st params h
  | addSafe n => simpa [applyEvent, add_safe_tool_halt_run] using h
  | addPattern p =>
    simp only [applyEvent, add_safe_tool_pattern]
    split <;> exact h
  | removeSafe n =>
    simp only [applyEvent, remove_safe_tool]
    split <;> exact h
  | clearSafe => exact h

theorem foldl_halt_mono (cb : ApprovalCallback) (evs : List AgentEvent) :
    ∀ (st : SafeAgentState), st.halt_run = true →
      (evs.foldl (applyEvent cb) st).halt_run = true := by
  induction evs with
  | nil =>
    intro st h
    exact h
  | cons e evs ih =>
    intro st h
    exact ih _ (applyEvent_halt_mono cb st e h)

/-! ### Claims -/

/-- C1: for every tool `T`, `is_tool_safe T` returns `true` iff the
global bypass flag (`skip_approvals`) is set, or `T`'s name is in the
exact allow-list set, or some compiled pattern in the pattern list
matches `T`'s name with prefix (starts-with) semantics — anchored at
the start of the name, unanchored at the end — and returns `false` in
all other cases. -/
theorem C1_is_tool_safe_iff (st : SafeAgentState) (t : Tool) :
    is_tool_safe st t = true ↔
      st.skip_approvals = true ∨ t.name ∈ st.safe_tool_names ∨
        ∃ r ∈ st.safe_tool_patterns,
          ∃ p q, t.name.data = p ++ q ∧ accepts r p = true := by
  unfold is_tool_safe
  by_cases hs : st.skip_approvals = true
  · simp [hs]
  · by_cases hm : t.name ∈ st.safe_tool_names
    · simp [hs, hm]
    · simp [hs, hm, List.any_eq_true, reMatchStr, reMatch_iff]

/-- Witness for C1: with the pattern compiled from `"read_"`, the tool
`read_file` is classified safe through the prefix-match disjunct. -/
theorem C1_is_tool_safe_iff_witness :
    is_tool_safe sampleAgent readTool = true := by
  apply (C1_is_tool_safe_iff _ _).mpr
  refine Or.inr (Or.inr ⟨patRead, by simp [sampleAgent], ?_⟩)
  exact ⟨['r', 'e', 'a', 'd', '_'], ['f', 'i', 'l', 'e'], by decide, by decide⟩

/-- C5: when `skip_approvals` is true every tool is classified safe
regardless of the allow-lists, `get_all_tools` wraps no tool, and the
approval callback is never invoked when invoking a returned (raw)
tool. -/
theorem C5_bypass (st : SafeAgentState) (hskip : st.skip_approvals = true) :
    (∀ t, is_tool_safe st t = true) ∧
    (∀ t, wrap_tool_with_approval st t = t) ∧
    (∀ tools, get_all_tools st tools = tools) ∧
    (∀ (cb : ApprovalCallback) (s : SafeAgentState) (f : String → String) (params : String),
      (runInvoke cb s (.base f) params).callbackCalls = []) := by
  have hsafe : ∀ t, is_tool_safe st t = true := by
    intro t
    simp [is_tool_safe, hskip]
  have hwrap : ∀ t, wrap_tool_with_approval st t = t := by
    intro t
    simp [wrap_tool_with_approval, hsafe t]
  refine ⟨hsafe, hwrap, ?_, ?_⟩
  · intro tools
    induction tools with
    | nil => rfl
    | cons t ts ih =>
      simp only [get_all_tools, List.map_cons, hwrap t]
      simpa [get_all_tools] using ih
  · intro cb s f params
    rfl

/-- Witness for C5: a bypassing agent passes a non-allow-listed tool
through unwrapped. -/
theorem C5_bypass_witness :
    wrap_tool_with_approval bypassAgent writeTool = writeTool ∧
    get_all_tools bypassAgent [listTool, writeTool] = [listTool, writeTool] := by
  exact ⟨(C5_bypass bypassAgent rfl).2.1 writeTool,
         (C5_bypass bypassAgent rfl).2.2.1 [listTool, writeTool]⟩

/-- C8: adding a safety pattern that does not compile never propagates
the error: `add_safe_tool_pattern` returns normally (it is a total
function) with the policy state completely unchanged — the bad pattern
is not added and nothing else is modified. -/
theorem C8_bad_pattern_swallowed (st : SafeAgentState) (pattern : String)
    (h : reCompile pattern = none) :
    add_safe_tool_pattern st pattern = st := by
  unfold add_safe_tool_pattern
  rw [h]

/-- Witness for C8: `"("` is an unclosed group, `re.compile` fails,
and the agent state is untouched. -/
theorem C8_bad_pattern_swallowed_witness :
    reCompile "(" = none ∧ add_safe_tool_pattern sampleAgent "(" = sampleAgent := by
  exact ⟨rfl, C8_bad_pattern_swallowed sampleAgent "(" rfl⟩

/-- C6: wrapping is idempotent — a tool produced by
`wrap_tool_with_approval` that is marked as wrapped is returned
unchanged (same name, description and schema) by a second
`wrap_tool_with_approval`, and invoking it consults the approval
callback exactly once, not twice. -/
theorem C6_wrap_idempotent (st st₂ sᵢ : SafeAgentState) (t : Tool)
    (f : String → String)
    (hbase : t.on_invoke = .base f)
    (ht : t.approval_wrapped = false)
    (hw : (wrap_tool_with_approval st t).approval_wrapped = true) :
    wrap_tool_with_approval st₂ (wrap_tool_with_approval st t) =
      wrap_tool_with_approval st t ∧
    ∀ (cb : ApprovalCallback) (params : String),
      ((runInvoke cb sᵢ (wrap_tool_with_approval st t).on_invoke params).callbackCalls).length = 1 := by
  have hWrapped : wrap_tool_with_approval st t =
      { name := t.name
        description := t.description
        params_json_schema := t.params_json_schema
        strict_json_schema := t.strict_json_schema
        isFunctionTool := true
        approval_wrapped := true
        on_invoke := .wrapped t.name t.on_invoke } := by
    unfold wrap_tool_with_approval at hw ⊢
    by_cases hs : is_tool_safe st t = true
    · rw [if_pos hs] at hw
      rw [ht] at hw
      exact absurd hw (by simp)
    · rw [if_neg hs] at hw ⊢
      rw [ht] at hw ⊢
      simp only [Bool.false_eq_true, if_false] at hw ⊢
      by_cases hf : t.isFunctionTool = true
      · simp [hf]
      · rw [eq_false_of_ne_true hf] at hw
        simp [ht] at hw
  constructor
  · rw [hWrapped]
    unfold wrap_tool_with_approval
    by_cases hs : is_tool_safe st₂
        { name := t.name
          description := t.description
          params_json_schema := t.params_json_schema
          strict_json_schema := t.strict_json_schema
          isFunctionTool := true
          approval_wrapped := true
          on_invoke := .wrapped t.name t.on_invoke } = true
    · rw [if_pos hs]
    · rw [if_neg hs]
      simp
  · intro cb params
    rw [hWrapped, hbase]
    rcases hcb : cb t.name (formatArgs params) with ⟨approved, always, err⟩
    cases approved with
    | true => simp [runInvoke, hcb]
    | false => simp [runInvoke, hcb]

/-- Witness for C6: the wrapped `write_file` is left unchanged by a
second wrap, and its invocation consults the callback once. -/
theorem C6_wrap_idempotent_witness :
    wrap_tool_with_approval sampleAgent (wrap_tool_with_approval sampleAgent writeTool) =
      wrap_tool_with_approval sampleAgent writeTool ∧
    ((runInvoke rejectPolicyCb sampleAgent
        (wrap_tool_with_approval sampleAgent writeTool).on_invoke "").callbackCalls).length = 1 := by
  have h := C6_wrap_idempotent sampleAgent sampleAgent sampleAgent writeTool
    (fun _ => "done") rfl rfl (by decide)
  exact ⟨h.1, h.2 rejectPolicyCb ""⟩

/-- Counterexample for C2: the claim reads the rejection `message` as
equal to the supplied reason `r` whenever `r` is present, with the
default only "when r is absent"; but the source computes
`error_msg or "User rejected tool call"`, and Python's `or` treats the
present-but-empty reason `""` as falsy.  Rejecting `write_file` with
reason `""` yields the default message, not `""` (and the halt reason
likewise falls back to `"User rejected"`). -/
theorem C2_rejection_payload_counterexample :
    (runInvoke rejectEmptyCb sampleAgent (.wrapped "write_file" writeTool.on_invoke) "").result ≠
      .rejection { error := "TOOL_REJECTED", message := "", tool := "write_file" } ∧
    (runInvoke rejectEmptyCb sampleAgent (.wrapped "write_file" writeTool.on_invoke) "").result =
      .rejection { error := "TOOL_REJECTED", message := "User rejected tool call", tool := "write_file" } ∧
    (runInvoke rejectEmptyCb sampleAgent (.wrapped "write_file" writeTool.on_invoke) "").state.halt_reason =
      some "User rejected the write_file tool" := by
  refine ⟨?_, rfl, rfl⟩
  intro h
  simp [runInvoke, rejectEmptyCb, pyStrOr, writeTool] at h

/-- C2 (amended): when the approval callback answers `approved=false`
with reason `r` for a wrapped tool named `X`, the wrapped invocation
returns (does not raise) a structured rejection payload with
`error = "TOOL_REJECTED"`, `message = r` when `r` is a present,
non-empty string and `"User rejected tool call"` when `r` is absent or
empty, and `tool = X`; with `halt_on_rejection=true` the halt reason
is set to `"<r or 'User rejected'> the X tool"` under the same
empty-is-absent reading.  Concretely, rejecting `write_file` with
reason `"policy"` yields the payload
`{error: "TOOL_REJECTED", message: "policy", tool: "write_file"}` and
halt reason `"policy the write_file tool"`. -/
theorem C2_rejection_payload (cb : ApprovalCallback) (st : SafeAgentState)
    (toolName : String) (orig : InvokeFn) (params : String)
    (always : Bool) (r : Option String)
    (hcb : cb toolName (formatArgs params) = (false, always, r)) :
    (runInvoke cb st (.wrapped toolName orig) params).result =
      .rejection
        { error := "TOOL_REJECTED"
          message := pyStrOr r "User rejected tool call"
          tool := toolName } ∧
    (st.halt_on_rejection = true →
      (runInvoke cb st (.wrapped toolName orig) params).state.halt_run = true ∧
      (runInvoke cb st (.wrapped toolName orig) params).state.halt_reason =
        some (pyStrOr r "User rejected" ++ " the " ++ toolName ++ " tool")) := by
  constructor
  · simp [runInvoke, hcb]
  · intro hh
    simp [runInvoke, hcb, hh]

/-- Witness for C2 (amended): the concrete scenario of the spec —
`safe_tool_names=["list_directory"]`, `halt_on_rejection=true`,
`get_all_tools` leaves `list_directory` unwrapped and wraps
`write_file`, and rejecting `write_file` with reason `"policy"` yields
the claimed payload and halt reason. -/
theorem C2_rejection_payload_witness :
    get_all_tools sampleAgent [listTool, writeTool] =
      [listTool, wrap_tool_with_approval sampleAgent writeTool] ∧
    (wrap_tool_with_approval sampleAgent writeTool).approval_wrapped = true ∧
    (runInvoke rejectPolicyCb sampleAgent
        (wrap_tool_with_approval sampleAgent writeTool).on_invoke "\x7b\"path\": \"x\"\x7d").result =
      .rejection { error := "TOOL_REJECTED", message := "policy", tool := "write_file" } ∧
    (runInvoke rejectPolicyCb sampleAgent
        (wrap_tool_with_approval sampleAgent writeTool).on_invoke "\x7b\"path\": \"x\"\x7d").state.halt_run = true ∧
    (runInvoke rejectPolicyCb sampleAgent
        (wrap_tool_with_approval sampleAgent writeTool).on_invoke "\x7b\"path\": \"x\"\x7d").state.halt_reason =
      some "policy the write_file tool" := by
  have hwrap : wrap_tool_with_approval sampleAgent writeTool =
      { name := "write_file"
        description := "writes a file"
        params_json_schema := [("path", "string")]
        strict_json_schema := true
        isFunctionTool := true
        approval_wrapped := true
        on_invoke := .wrapped "write_file" writeTool.on_invoke } := by
    rfl
  have h := C2_rejection_payload rejectPolicyCb sampleAgent "write_file"
    writeTool.on_invoke "\x7b\"path\": \"x\"\x7d" false (some "policy") rfl
  refine ⟨?_, ?_, ?_, ?_, ?_⟩
  · rfl
  · rw [hwrap]
  · rw [hwrap]
    exact h.1
  · rw [hwrap]
    exact (h.2 rfl).1
  · rw [hwrap]
    exact (h.2 rfl).2

/-- C4: when the approval callback answers `(approved=true,
remember=true, *)` for a tool named `X`, the name is added to the
exact allow-list, a subsequent `get_all_tools` classifies `X` as safe
and returns the raw tool unwrapped, and invoking that unwrapped tool
does not invoke the approval callback. -/
theorem C4_remember_semantics (cb : ApprovalCallback) (st : SafeAgentState)
    (t : Tool) (f : String → String) (params : String) (r : Option String)
    (hbase : t.on_invoke = .base f)
    (hcb : cb t.name (formatArgs params) = (true, true, r)) :
    t.name ∈ (runInvoke cb st (.wrapped t.name t.on_invoke) params).state.safe_tool_names ∧
    is_tool_safe (runInvoke cb st (.wrapped t.name t.on_invoke) params).state t = true ∧
    wrap_tool_with_approval (runInvoke cb st (.wrapped t.name t.on_invoke) params).state t = t ∧
    get_all_tools (runInvoke cb st (.wrapped t.name t.on_invoke) params).state [t] = [t] ∧
    ∀ (cb₂ : ApprovalCallback) (s₂ : SafeAgentState) (params₂ : String),
      (runInvoke cb₂ s₂ t.on_invoke params₂).callbackCalls = [] := by
  have hstate : (runInvoke cb st (.wrapped t.name t.on_invoke) params).state =
      add_safe_tool st t.name := by
    rw [hbase]
    simp [runInvoke, hcb]
  have hmem : t.name ∈ (runInvoke cb st (.wrapped t.name t.on_invoke) params).state.safe_tool_names := by
    rw [hstate]
    exact add_safe_tool_mem st t.name
  have hsafe : is_tool_safe (runInvoke cb st (.wrapped t.name t.on_invoke) params).state t = true := by
    unfold is_tool_safe
    by_cases hs : (runInvoke cb st (.wrapped t.name t.on_invoke) params).state.skip_approvals = true
    · simp [hs]
    · simp [hs, hmem]
  have hwrap : wrap_tool_with_approval (runInvoke cb st (.wrapped t.name t.on_invoke) params).state t = t := by
    unfold wrap_tool_with_approval
    rw [if_pos hsafe]
  refine ⟨hmem, hsafe, hwrap, ?_, ?_⟩
  · simp [get_all_tools, hwrap]
  · intro cb₂ s₂ params₂
    rw [hbase]
    rfl

/-- Witness for C4: approving `write_file` with remember=true makes a
later fetch return it unwrapped and a later invocation callback-free. -/
theorem C4_remember_semantics_witness :
    "write_file" ∈ (runInvoke rememberCb sampleAgent
        (.wrapped "write_file" writeTool.on_invoke) "").state.safe_tool_names ∧
    wrap_tool_with_approval (runInvoke rememberCb sampleAgent
        (.wrapped "write_file" writeTool.on_invoke) "").state writeTool = writeTool ∧
    (runInvoke rejectPolicyCb sampleAgent writeTool.on_invoke "").callbackCalls = [] := by
  have h := C4_remember_semantics rememberCb sampleAgent writeTool
    (fun _ => "done") "" none rfl rfl
  exact ⟨h.1, h.2.2.1, h.2.2.2.2 rejectPolicyCb sampleAgent ""⟩

/-- C9: for every argument payload string the display-formatting step
never aborts the wrapped invocation — the approval callback is still
invoked, with the summary as first (and here only) callback argument
pair; the summary is the comma-separated `key: value` rendering of the
parsed object's items in supplied order when the payload parses as
structured key-value data, and the raw payload text otherwise. -/
theorem C9_format_never_aborts (cb : ApprovalCallback) (st : SafeAgentState)
    (toolName : String) (orig : InvokeFn) (params : String) :
    (runInvoke cb st (.wrapped toolName orig) params).callbackCalls.head? =
      some (toolName, formatArgs params) ∧
    (formatArgs params = params ∨
      ∃ kvs, jsonLoads params = some (.obj kvs) ∧
        formatArgs params = String.intercalate ", " (kvs.map formatPair)) := by
  constructor
  · rcases hcb : cb toolName (formatArgs params) with ⟨approved, always, err⟩
    cases approved with
    | true => simp [runInvoke, hcb]
    | false => simp [runInvoke, hcb]
  · unfold formatArgs
    by_cases hp : params = ""
    · left
      simp [hp]
    · rw [if_neg hp]
      rcases hj : jsonLoads params with _ | v
      · left
        rfl
      · cases v with
        | obj kvs => right; exact ⟨kvs, rfl, rfl⟩
        | str s => left; rfl
        | int n => left; rfl
        | bool b => left; rfl
        | null => left; rfl
        | arr xs => left; rfl

/-- Witness for C9: a structured payload is summarized as `key: value`
pairs and a malformed payload falls back to its raw text; in both
cases the callback is reached. -/
theorem C9_format_never_aborts_witness :
    (runInvoke rejectPolicyCb sampleAgent
        (.wrapped "write_file" writeTool.on_invoke) "\x7b\"path\": \"x\", \"mode\": 7\x7d").callbackCalls.head? =
      some ("write_file", "path: 'x', mode: 7") ∧
    (runInvoke rejectPolicyCb sampleAgent
        (.wrapped "write_file" writeTool.on_invoke) "not json \x7b").callbackCalls.head? =
      some ("write_file", "not json \x7b") := by
  constructor
  · have h := (C9_format_never_aborts rejectPolicyCb sampleAgent "write_file"
      writeTool.on_invoke "\x7b\"path\": \"x\", \"mode\": 7\x7d").1
    rw [h]
    rfl
  · have h := (C9_format_never_aborts rejectPolicyCb sampleAgent "write_file"
      writeTool.on_invoke "not json \x7b").1
    rw [h]
    rfl

/-- C3: after a rejection with `halt_on_rejection=true`, every
subsequent invocation of the step controller within the same run
(i.e. after any further sequence of agent events) returns the
final-output signal with the empty result, regardless of the original
step behavior; when the halt flag is not set the controller delegates
to the original behavior (the awaited and the directly-called case
yield the same value), and defaults to "continue, no final output"
when no original behavior was stored. -/
theorem C3_halt_controller (cb : ApprovalCallback) (st : SafeAgentState)
    (toolName : String) (orig : InvokeFn) (params : String)
    (always : Bool) (r : Option String)
    (hcb : cb toolName (formatArgs params) = (false, always, r))
    (hhalt : st.halt_on_rejection = true) :
    (∀ (evs : List AgentEvent) (ctx : Ctx) (results : ToolResults),
      custom_tool_use_behavior
        (evs.foldl (applyEvent cb)
          (runInvoke cb st (.wrapped toolName orig) params).state) ctx results =
        { is_final_output := true, final_output := some "" }) ∧
    (∀ (s : SafeAgentState) (ctx : Ctx) (results : ToolResults) (b : BehaviorFn),
      s.halt_run = false → s.original_tool_use_behavior = some b →
        custom_tool_use_behavior s ctx results = b.call ctx results) ∧
    (∀ (s : SafeAgentState) (ctx : Ctx) (results : ToolResults),
      s.halt_run = false → s.original_tool_use_behavior = none →
        custom_tool_use_behavior s ctx results =
          { is_final_output := false, final_output := none }) := by
  refine ⟨?_, ?_, ?_⟩
  · intro evs ctx results
    have hrun : (runInvoke cb st (.wrapped toolName orig) params).state.halt_run = true := by
      simp [runInvoke, hcb, hhalt]
    have hfold := foldl_halt_mono cb evs _ hrun
    simp [custom_tool_use_behavior, hfold]
  · intro s ctx results b h₁ h₂
    simp only [custom_tool_use_behavior, h₁, h₂, Bool.false_eq_true, if_false]
    split <;> rfl
  · intro s ctx results h₁ h₂
    simp [custom_tool_use_behavior, h₁, h₂]

/-- Witness for C3: after rejecting `write_file`, the controller
forces the empty final output even after a further policy mutation,
and a non-halted agent with no stored original behavior continues. -/
theorem C3_halt_controller_witness :
    custom_tool_use_behavior
      ([AgentEvent.addSafe "glob_files"].foldl (applyEvent rejectPolicyCb)
        (runInvoke rejectPolicyCb sampleAgent
          (.wrapped "write_file" writeTool.on_invoke) "").state) "ctx" [] =
      { is_final_output := true, final_output := some "" } ∧
    custom_tool_use_behavior sampleAgent "ctx" [] =
      { is_final_output := false, final_output := none } := by
  have h := C3_halt_controller rejectPolicyCb sampleAgent "write_file"
    writeTool.on_invoke "" false (some "policy") rfl rfl
  exact ⟨h.1 [AgentEvent.addSafe "glob_files"] "ctx" [],
         h.2.2 sampleAgent "ctx" [] rfl rfl⟩

/-- C7: the halt flag is monotone within a run — once set it is never
cleared by any further tool invocation, approval, or policy mutation —
and it can only transition from unset to set through a tool invocation
that produced a rejection while `halt_on_rejection` is true; it is
cleared only by the explicit run-reset operation (modelled from the
spec), which also clears the reason. -/
theorem C7_halt_once_per_run (cb : ApprovalCallback) (st : SafeAgentState) :
    (∀ evs : List AgentEvent, st.halt_run = true →
      (evs.foldl (applyEvent cb) st).halt_run = true) ∧
    (∀ e : AgentEvent, (applyEvent cb st e).halt_run = true →
      st.halt_run = true ∨
        (st.halt_on_rejection = true ∧
          ∃ fn params, e = .invokeTool fn params ∧
            ∃ p, (runInvoke cb st fn params).result = .rejection p)) ∧
    (resetHaltState st).halt_run = false ∧
    (resetHaltState st).halt_reason = none := by
  refine ⟨fun evs h => foldl_halt_mono cb evs st h, ?_, rfl, rfl⟩
  intro e h
  cases e with
  | invokeTool fn params =>
    rcases runInvoke_halt_new cb fn st params h with h' | ⟨hr, p, hp⟩
    · exact Or.inl h'
    · exact Or.inr ⟨hr, fn, params, rfl, p, hp⟩
  | addSafe n =>
    left
    simpa [applyEvent, add_safe_tool_halt_run] using h
  | addPattern pat =>
    left
    simp only [applyEvent, add_safe_tool_pattern] at h
    revert h
    split <;> exact fun h => h
  | removeSafe n =>
    left
    simp only [applyEvent, remove_safe_tool] at h
    revert h
    split <;> exact fun h => h
  | clearSafe =>
    left
    exact h

/-- Witness for C7: a halted agent stays halted across a mutation and
a further (approved) invocation, and the explicit reset clears the
halt state. -/
theorem C7_halt_once_per_run_witness :
    ([AgentEvent.addSafe "web_search",
      AgentEvent.invokeTool (.base (fun _ => "ok")) ""].foldl
        (applyEvent rememberCb) { sampleAgent with halt_run := true }).halt_run = true ∧
    (resetHaltState { sampleAgent with halt_run := true }).halt_run = false := by
  have h := C7_halt_once_per_run rememberCb { sampleAgent with halt_run := true }
  exact ⟨h.1 [AgentEvent.addSafe "web_search",
              AgentEvent.invokeTool (.base (fun _ => "ok")) ""] rfl, h.2.2.1⟩

/-- C10: `SafeAgent.__init__` replaces `tool_use_behavior` with the
halt-checking behavior iff the pre-existing attribute is callable at
that moment; when it is not callable (e.g. the runtime's default
string-valued mode), the attribute is left unchanged and no original
behavior is stored, so a later rejection sets the halt flag while the
agent's `tool_use_behavior` is still the inherited (non-hook) value —
no installed hook reads the flag at the next step boundary. -/
theorem C10_init_installs_iff_callable (names : List String) (pats : List Regex)
    (debug haltr skip : Bool) (inherited : ToolUseBehaviorAttr) :
    ((initSafeAgent names pats debug haltr skip inherited).tool_use_behavior =
      if callableBehavior inherited then ToolUseBehaviorAttr.customHalt else inherited) ∧
    (callableBehavior inherited = false →
      (initSafeAgent names pats debug haltr skip inherited).tool_use_behavior = inherited ∧
      (initSafeAgent names pats debug haltr skip inherited).original_tool_use_behavior = none ∧
      ∀ (cb : ApprovalCallback) (toolName : String) (orig : InvokeFn) (params : String)
        (always : Bool) (r : Option String),
        cb toolName (formatArgs params) = (false, always, r) → haltr = true →
          (runInvoke cb (initSafeAgent names pats debug haltr skip inherited)
            (.wrapped toolName orig) params).state.halt_run = true ∧
          (runInvoke cb (initSafeAgent names pats debug haltr skip inherited)
            (.wrapped toolName orig) params).state.tool_use_behavior = inherited) := by
  by_cases hc : callableBehavior inherited = true
  · refine ⟨by simp [initSafeAgent, hc], ?_⟩
    intro h
    rw [hc] at h
    exact absurd h (by simp)
  · have hb : (initSafeAgent names pats debug haltr skip inherited) =
        { safe_tool_names := names
          safe_tool_patterns := pats
          debug_mode := debug
          halt_on_rejection := haltr
          skip_approvals := skip
          halt_run := false
          halt_reason := none
          original_tool_use_behavior := none
          tool_use_behavior := inherited } := by
      unfold initSafeAgent
      simp [hc]
    refine ⟨by simp [hb, hc], fun _ => ⟨by simp [hb], by simp [hb], ?_⟩⟩
    intro cb toolName orig params always r hcb hh
    subst hh
    constructor
    · simp [runInvoke, hcb, hb]
    · rw [runInvoke_behavior]
      simp [hb]

/-- Witness for C10: initializing over the runtime's string-valued
default mode leaves `tool_use_behavior` unchanged, stores no original,
and a rejection still sets the halt flag without installing the hook. -/
theorem C10_init_installs_iff_callable_witness :
    (initSafeAgent ["list_directory"] [] false true false
      (.runMode "run_llm_again")).tool_use_behavior = .runMode "run_llm_again" ∧
    (initSafeAgent ["list_directory"] [] false true false
      (.runMode "run_llm_again")).original_tool_use_behavior = none ∧
    (runInvoke rejectPolicyCb
      (initSafeAgent ["list_directory"] [] false true false (.runMode "run_llm_again"))
      (.wrapped "write_file" writeTool.on_invoke) "").state.halt_run = true := by
  have h := (C10_init_installs_iff_callable ["list_directory"] [] false true false
    (.runMode "run_llm_again")).2 rfl
  exact ⟨h.1, h.2.1,
    (h.2.2 rejectPolicyCb "write_file" writeTool.on_invoke "" false (some "policy") rfl rfl).1⟩
